import Mathlib

/-!
Verification of the sprint-analytics engine of the mcp-jira repository.

The Python modules `types.py`, `jira_client.py` and `scrum_master.py` are
shallowly embedded below: pydantic models become structures, story points and
the float thresholds become exact rationals, Python dicts (which preserve
insertion order) become association lists updated in place, and ISO date
strings become day counts (`Option Int`), with the current time passed in
explicitly.  Functions marked `Modelled from the spec:` correspond to engine
operations that the repository's HTTP layer (`server.py`) calls but whose
bodies are not part of the source tree.
-/

namespace McpJira

/-- Priority enum from `types.py`. -/
inductive Priority where
  | highest
  | high
  | medium
  | low
  | lowest
deriving DecidableEq, Repr

/-- IssueType enum from `types.py`. -/
inductive IssueType where
  | epic
  | story
  | task
  | bug
  | subTask
deriving DecidableEq, Repr

/-- SprintStatus enum from `types.py`. -/
inductive SprintStatus where
  | future
  | active
  | closed
deriving DecidableEq, Repr

/-- The Issue model from `types.py` (fields not used by any analytics code,
such as `description` and `sprint`, are kept optional with defaults). -/
structure Issue where
  key : String
  summary : String
  description : Option String := none
  issue_type : IssueType := IssueType.task
  priority : Option Priority := none
  assignee : Option String := none
  story_points : Option ℚ := none
  sprint : Option String := none
  status : String
deriving DecidableEq, Repr

/-- The Sprint model from `types.py`; the optional ISO timestamp strings
`start_date` / `end_date` are modelled as optional day counts. -/
structure Sprint where
  id : ℤ
  name : String
  status : SprintStatus
  start_date : Option ℤ := none
  end_date : Option ℤ := none
  goal : Option String := none
deriving DecidableEq, Repr

/-- SprintMetrics from `types.py`. -/
structure SprintMetrics where
  total_points : ℚ
  completed_points : ℚ
  remaining_points : ℚ
  completion_percentage : ℚ
  issues : List Issue
deriving DecidableEq, Repr

/-- The `story_points or 0` idiom used throughout the Python source: a missing
value contributes 0 points (and in Python `0 or 0` is also 0). -/
def pointsOf (i : Issue) : ℚ :=
  i.story_points.getD 0

/-- Sum of story points of a list of issues. -/
def points_sum (l : List Issue) : ℚ :=
  (l.map pointsOf).sum

/-- Python `str.lower()` on the ASCII status strings the engine compares,
modelled by lowercasing each character. -/
def lowerString (s : String) : String :=
  ⟨s.data.map Char.toLower⟩

/-- `status.lower() in ["done", "completed"]` (jira_client.py line 56). -/
def isDoneStatus (s : String) : Bool :=
  lowerString s == "done" || lowerString s == "completed"

/-- `status.lower() in ["blocked", "impediment"]` (scrum_master.py line 132). -/
def isBlockedStatus (s : String) : Bool :=
  lowerString s == "blocked" || lowerString s == "impediment"

/-- `JiraClient.get_sprint_metrics` (jira_client.py lines 42 to 67).  The
Python loop accumulates `total_points` over every issue and
`completed_points` over the issues whose status is done/completed; here the
two accumulations are written as a sum over the list and a sum over the
filtered list, which fold to the same values. -/
def get_sprint_metrics (issues : List Issue) : SprintMetrics :=
  let total := points_sum issues
  let completed := points_sum (issues.filter (fun i => isDoneStatus i.status))
  { total_points := total
    completed_points := completed
    remaining_points := total - completed
    completion_percentage := if total > 0 then completed / total * 100 else 0
    issues := issues }

/-- Every issue in `l` has non-negative points after the `or 0` defaulting,
provided every present `story_points` value is non-negative. -/
lemma pointsOf_nonneg {i : Issue} (h : ∀ p, i.story_points = some p → 0 ≤ p) :
    0 ≤ pointsOf i := by
  unfold pointsOf
  cases hsp : i.story_points with
  | none => simp
  | some p => simpa using h p hsp

lemma points_sum_nonneg {l : List Issue}
    (h : ∀ i ∈ l, ∀ p, i.story_points = some p → 0 ≤ p) :
    0 ≤ points_sum l := by
  induction l with
  | nil => simp [points_sum]
  | cons a t ih =>
      have ha : 0 ≤ pointsOf a := pointsOf_nonneg (h a (by simp))
      have ht : 0 ≤ points_sum t := ih (fun i hi => h i (by simp [hi]))
      simp only [points_sum, List.map_cons, List.sum_cons]
      have : (0 : ℚ) ≤ pointsOf a + (t.map pointsOf).sum := by
        have := ht
        simp only [points_sum] at this
        linarith
      simpa using this

lemma points_sum_filter_le (l : List Issue) (p : Issue → Bool)
    (h : ∀ i ∈ l, ∀ q, i.story_points = some q → 0 ≤ q) :
    points_sum (l.filter p) ≤ points_sum l := by
  induction l with
  | nil => simp [points_sum]
  | cons a t ih =>
      have ha : 0 ≤ pointsOf a := pointsOf_nonneg (h a (by simp))
      have ht := ih (fun i hi => h i (by simp [hi]))
      by_cases hp : p a
      · simp only [points_sum, List.filter_cons, hp, List.map_cons, List.sum_cons,
          if_true]
        simp only [points_sum] at ht
        linarith
      · simp only [points_sum, List.filter_cons, hp, List.map_cons, List.sum_cons,
          Bool.false_eq_true, if_false]
        simp only [points_sum] at ht
        linarith

/-- Claim C1: for every SprintMetrics value produced by `get_sprint_metrics`,
completed plus remaining points equal total points; the completion percentage
is 0 when total points are 0 (no division by zero) and otherwise equals
completed/total*100; and, when every present story-point value is
non-negative, the percentage lies in the interval [0, 100]. -/
theorem get_sprint_metrics_invariants (issues : List Issue)
    (h : ∀ i ∈ issues, ∀ p, i.story_points = some p → 0 ≤ p) :
    (get_sprint_metrics issues).completed_points +
        (get_sprint_metrics issues).remaining_points =
      (get_sprint_metrics issues).total_points ∧
    ((get_sprint_metrics issues).total_points = 0 →
      (get_sprint_metrics issues).completion_percentage = 0) ∧
    ((get_sprint_metrics issues).total_points ≠ 0 →
      (get_sprint_metrics issues).completion_percentage =
        (get_sprint_metrics issues).completed_points /
          (get_sprint_metrics issues).total_points * 100) ∧
    0 ≤ (get_sprint_metrics issues).completion_percentage ∧
    (get_sprint_metrics issues).completion_percentage ≤ 100 := by
  have htot : 0 ≤ points_sum issues := points_sum_nonneg h
  have hcompl0 : 0 ≤ points_sum (issues.filter (fun i => isDoneStatus i.status)) :=
    points_sum_nonneg (fun i hi => h i (List.mem_of_mem_filter hi))
  have hle : points_sum (issues.filter (fun i => isDoneStatus i.status)) ≤
      points_sum issues := points_sum_filter_le issues _ h
  refine ⟨by simp [get_sprint_metrics], ?_, ?_, ?_, ?_⟩
  · intro h0
    simp only [get_sprint_metrics] at h0 ⊢
    simp [h0]
  · intro hne
    have hpos : 0 < points_sum issues := by
      simp only [get_sprint_metrics] at hne
      exact lt_of_le_of_ne htot (Ne.symm hne)
    simp [get_sprint_metrics, hpos]
  · by_cases hpos : 0 < points_sum issues
    · have : 0 ≤ points_sum (issues.filter (fun i => isDoneStatus i.status)) /
          points_sum issues * 100 := by positivity
      simpa [get_sprint_metrics, hpos] using this
    · simp [get_sprint_metrics, hpos]
  · by_cases hpos : 0 < points_sum issues
    · have hdiv : points_sum (issues.filter (fun i => isDoneStatus i.status)) /
          points_sum issues ≤ 1 := by
        rw [div_le_one hpos]
        exact hle
      have : points_sum (issues.filter (fun i => isDoneStatus i.status)) /
          points_sum issues * 100 ≤ 100 := by nlinarith
      simpa [get_sprint_metrics, hpos] using this
    · simp [get_sprint_metrics, hpos]

/-- The end-to-end scenario from the spec: issues of 5 (Done), 3 (Blocked)
and 2 (To Do) story points. -/
def sampleIssues : List Issue :=
  [ { key := "S-1", summary := "five", story_points := some 5, status := "Done" },
    { key := "S-2", summary := "three", story_points := some 3, status := "Blocked" },
    { key := "S-3", summary := "two", story_points := some 2, status := "To Do" } ]

/-- Witness for claim C1 at the concrete three-issue scenario. -/
theorem get_sprint_metrics_invariants_witness :
    (get_sprint_metrics sampleIssues).completed_points +
        (get_sprint_metrics sampleIssues).remaining_points =
      (get_sprint_metrics sampleIssues).total_points ∧
    ((get_sprint_metrics sampleIssues).total_points = 0 →
      (get_sprint_metrics sampleIssues).completion_percentage = 0) ∧
    ((get_sprint_metrics sampleIssues).total_points ≠ 0 →
      (get_sprint_metrics sampleIssues).completion_percentage =
        (get_sprint_metrics sampleIssues).completed_points /
          (get_sprint_metrics sampleIssues).total_points * 100) ∧
    0 ≤ (get_sprint_metrics sampleIssues).completion_percentage ∧
    (get_sprint_metrics sampleIssues).completion_percentage ≤ 100 :=
  get_sprint_metrics_invariants sampleIssues (by
    intro i hi p hp
    fin_cases hi <;> simp_all <;> subst hp <;> norm_num)

/-- Severity levels used by recommendations and risks. -/
inductive Severity where
  | high
  | medium
  | low
deriving DecidableEq, Repr

/-- The per-issue record appended to a workload entry
(scrum_master.py lines 35 to 39). -/
structure IssueRef where
  key : String
  points : ℚ
  summary : String
deriving DecidableEq, Repr

/-- One value of the `workload_distribution` dict
(scrum_master.py lines 30 to 33). -/
structure Workload where
  points : ℚ
  issues : List IssueRef
deriving DecidableEq, Repr

/-- Recommendations produced by `plan_sprint`, with the detail payloads each
branch attaches (scrum_master.py lines 42 to 91). -/
inductive Recommendation where
  | overcommitment (severity : Severity) (current_points target_points overage : ℚ)
  | workload_imbalance (severity : Severity) (assignee : String)
      (current_points team_average : ℚ) (affected_issues : List IssueRef)
  | large_stories (severity : Severity) (distribution : List (ℚ × Nat))
deriving DecidableEq, Repr

/-- Update of the `workload_distribution` dict for one issue: the entry for
the assignee is created on first sight (at the end, as Python dicts preserve
insertion order) and otherwise updated in place
(scrum_master.py lines 29 to 39). -/
def addIssue (dist : List (String × Workload)) (a : String) (ref : IssueRef)
    (pts : ℚ) : List (String × Workload) :=
  match dist with
  | [] => [(a, { points := pts, issues := [ref] })]
  | (b, w) :: rest =>
      if b = a then
        (b, { points := w.points + pts, issues := w.issues ++ [ref] }) :: rest
      else
        (b, w) :: addIssue rest a ref pts

/-- One iteration of the workload-distribution loop
(scrum_master.py lines 26 to 39): issues without an assignee are skipped. -/
def distStep (dist : List (String × Workload)) (i : Issue) :
    List (String × Workload) :=
  match i.assignee with
  | none => dist
  | some a => addIssue dist a ⟨i.key, pointsOf i, i.summary⟩ (pointsOf i)

/-- The workload-distribution loop of `plan_sprint`
(scrum_master.py lines 26 to 39). -/
def workload_distribution (issues : List Issue) : List (String × Workload) :=
  issues.foldl distStep []

/-- Increment of the `story_points_distribution` dict for one point value
(scrum_master.py lines 77 to 80). -/
def bump (d : List (ℚ × Nat)) (p : ℚ) : List (ℚ × Nat) :=
  match d with
  | [] => [(p, 1)]
  | (q, n) :: rest => if q = p then (q, n + 1) :: rest else (q, n) :: bump rest p

/-- One iteration of the story-point-distribution loop
(scrum_master.py lines 76 to 80). -/
def bumpStep (d : List (ℚ × Nat)) (i : Issue) : List (ℚ × Nat) :=
  bump d (pointsOf i)

/-- The story-point distribution of `plan_sprint`
(scrum_master.py lines 75 to 80). -/
def story_points_distribution (issues : List Issue) : List (ℚ × Nat) :=
  issues.foldl bumpStep []

/-- The overcommitment recommendation of `plan_sprint`
(scrum_master.py lines 42 to 53). -/
def overcommitment_recommendations (total_points target_velocity : ℚ) :
    List Recommendation :=
  if total_points > target_velocity * 1.2 then
    [Recommendation.overcommitment Severity.high total_points target_velocity
      (total_points - target_velocity)]
  else []

/-- The inner loop of the workload-balance check
(scrum_master.py lines 59 to 72): one recommendation appended per
over-threshold entry, in dict order. -/
def imbalance_filterMap (avg : ℚ) : List (String × Workload) → List Recommendation
  | [] => []
  | (a, w) :: rest =>
      if w.points > avg * 1.3 then
        Recommendation.workload_imbalance Severity.medium a w.points avg w.issues ::
          imbalance_filterMap avg rest
      else imbalance_filterMap avg rest

/-- The workload-balance check of `plan_sprint`
(scrum_master.py lines 55 to 72): guarded by a non-empty team,
with team average `target_velocity / team_size`. -/
def workload_recommendations (target_velocity : ℚ)
    (dist : List (String × Workload)) : List Recommendation :=
  if 0 < dist.length then
    imbalance_filterMap (target_velocity / (dist.length : ℚ)) dist
  else []

/-- The large-story check of `plan_sprint` (scrum_master.py lines 82 to 91):
fires when the distribution has a key 13 or 21. -/
def large_story_recommendations (issues : List Issue) : List Recommendation :=
  if (story_points_distribution issues).any (fun e => decide (e.1 = 13)) ||
      (story_points_distribution issues).any (fun e => decide (e.1 = 21)) then
    [Recommendation.large_stories Severity.medium (story_points_distribution issues)]
  else []

/-- The analysis dict returned by `ScrumMaster.plan_sprint`
(scrum_master.py lines 14 to 23; the `risks` key stays empty). -/
structure PlanAnalysis where
  recommendations : List Recommendation
  workload_distribution : List (String × Workload)
  total_points : ℚ
  target_velocity : ℚ
  variance : ℚ
deriving DecidableEq, Repr

/-- `ScrumMaster.plan_sprint` (scrum_master.py lines 10 to 93); the
recommendation list is built in source order: overcommitment, then workload
imbalance, then large stories. -/
def plan_sprint (metrics : SprintMetrics) (target_velocity : ℚ) : PlanAnalysis :=
  let dist := workload_distribution metrics.issues
  { recommendations :=
      overcommitment_recommendations metrics.total_points target_velocity ++
        workload_recommendations target_velocity dist ++
        large_story_recommendations metrics.issues
    workload_distribution := dist
    total_points := metrics.total_points
    target_velocity := target_velocity
    variance := metrics.total_points - target_velocity }

/-- Recognizer for overcommitment recommendations. -/
def isOvercommitment : Recommendation → Bool
  | Recommendation.overcommitment _ _ _ _ => true
  | _ => false

/-- Recognizer for workload-imbalance recommendations naming assignee `a`. -/
def isImbalanceFor (a : String) : Recommendation → Bool
  | Recommendation.workload_imbalance _ b _ _ _ => b == a
  | _ => false

/-- Recognizer for large-stories recommendations. -/
def isLargeStories : Recommendation → Bool
  | Recommendation.large_stories _ _ => true
  | _ => false

/-- Lookup of an assignee in the workload distribution, mirroring a Python
dict access. -/
def findWorkload (a : String) : List (String × Workload) → Option Workload
  | [] => none
  | (b, w) :: rest => if b = a then some w else findWorkload a rest

/-- Lookup of a point value in the story-point distribution. -/
def findCount (p : ℚ) : List (ℚ × Nat) → Option Nat
  | [] => none
  | (q, n) :: rest => if q = p then some n else findCount p rest

/-- The issues of a list assigned to `a`. -/
def assignedTo (a : String) (issues : List Issue) : List Issue :=
  issues.filter (fun i => decide (i.assignee = some a))

/-- The per-issue records `plan_sprint` attaches to a workload entry. -/
def refsOf (l : List Issue) : List IssueRef :=
  l.map (fun i => ⟨i.key, pointsOf i, i.summary⟩)

/-- How many issues of the list carry exactly `p` story points
(after the `or 0` defaulting). -/
def countPoints (p : ℚ) (issues : List Issue) : Nat :=
  (issues.filter (fun i => decide (pointsOf i = p))).length

lemma over_filter_self (t tv : ℚ) :
    (overcommitment_recommendations t tv).filter isOvercommitment =
      overcommitment_recommendations t tv := by
  unfold overcommitment_recommendations
  split_ifs <;> simp [isOvercommitment]

lemma over_filter_imb (t tv : ℚ) (a : String) :
    (overcommitment_recommendations t tv).filter (isImbalanceFor a) = [] := by
  unfold overcommitment_recommendations
  split_ifs <;> simp [isImbalanceFor]

lemma over_filter_large (t tv : ℚ) :
    (overcommitment_recommendations t tv).filter isLargeStories = [] := by
  unfold overcommitment_recommendations
  split_ifs <;> simp [isLargeStories]

lemma large_filter_self (issues : List Issue) :
    (large_story_recommendations issues).filter isLargeStories =
      large_story_recommendations issues := by
  unfold large_story_recommendations
  split_ifs <;> simp [isLargeStories]

lemma large_filter_over (issues : List Issue) :
    (large_story_recommendations issues).filter isOvercommitment = [] := by
  unfold large_story_recommendations
  split_ifs <;> simp [isOvercommitment]

lemma large_filter_imb (issues : List Issue) (a : String) :
    (large_story_recommendations issues).filter (isImbalanceFor a) = [] := by
  unfold large_story_recommendations
  split_ifs <;> simp [isImbalanceFor]

lemma imbalance_filter_over (avg : ℚ) (dist : List (String × Workload)) :
    (imbalance_filterMap avg dist).filter isOvercommitment = [] := by
  induction dist with
  | nil => rfl
  | cons hd tl ih =>
      obtain ⟨b, u⟩ := hd
      by_cases hc : u.points > avg * 1.3
      · simp [imbalance_filterMap, hc, List.filter_cons, isOvercommitment, ih]
      · simp [imbalance_filterMap, hc, ih]

lemma imbalance_filter_large (avg : ℚ) (dist : List (String × Workload)) :
    (imbalance_filterMap avg dist).filter isLargeStories = [] := by
  induction dist with
  | nil => rfl
  | cons hd tl ih =>
      obtain ⟨b, u⟩ := hd
      by_cases hc : u.points > avg * 1.3
      · simp [imbalance_filterMap, hc, List.filter_cons, isLargeStories, ih]
      · simp [imbalance_filterMap, hc, ih]

lemma workload_filter_over (tv : ℚ) (dist : List (String × Workload)) :
    (workload_recommendations tv dist).filter isOvercommitment = [] := by
  unfold workload_recommendations
  split_ifs
  · exact imbalance_filter_over _ _
  · rfl

lemma workload_filter_large (tv : ℚ) (dist : List (String × Workload)) :
    (workload_recommendations tv dist).filter isLargeStories = [] := by
  unfold workload_recommendations
  split_ifs
  · exact imbalance_filter_large _ _
  · rfl

/-- The overcommitment recommendations of a `plan_sprint` analysis are exactly
those of the overcommitment branch. -/
lemma plan_sprint_filter_over (m : SprintMetrics) (tv : ℚ) :
    (plan_sprint m tv).recommendations.filter isOvercommitment =
      overcommitment_recommendations m.total_points tv := by
  unfold plan_sprint
  simp only [List.filter_append]
  rw [over_filter_self, workload_filter_over, large_filter_over]
  simp

/-- Claim C2: `plan_sprint` emits an overcommitment recommendation, of
severity high, exactly when the sprint total exceeds 1.2 times the target
velocity, with overage equal to total minus target; in particular a 25-point
sprint at target 20 yields exactly one such recommendation with overage 5,
and a 23-point sprint yields none. -/
theorem plan_sprint_overcommitment (m : SprintMetrics) (tv : ℚ) :
    ((plan_sprint m tv).recommendations.filter isOvercommitment =
      if m.total_points > tv * 1.2 then
        [Recommendation.overcommitment Severity.high m.total_points tv
          (m.total_points - tv)]
      else []) ∧
    ((plan_sprint (get_sprint_metrics
        [{ key := "A", summary := "a", story_points := some 25,
           status := "To Do" }]) 20).recommendations.filter isOvercommitment =
      [Recommendation.overcommitment Severity.high 25 20 5]) ∧
    ((plan_sprint (get_sprint_metrics
        [{ key := "B", summary := "b", story_points := some 23,
           status := "To Do" }]) 20).recommendations.filter isOvercommitment =
      []) := by
  refine ⟨?_, ?_, ?_⟩
  · rw [plan_sprint_filter_over]
    rfl
  · rw [plan_sprint_filter_over]
    norm_num [overcommitment_recommendations, get_sprint_metrics, points_sum, pointsOf]
  · rw [plan_sprint_filter_over]
    norm_num [overcommitment_recommendations, get_sprint_metrics, points_sum, pointsOf]

lemma points_sum_cons (i : Issue) (l : List Issue) :
    points_sum (i :: l) = pointsOf i + points_sum l := by
  simp [points_sum]

lemma refsOf_cons (i : Issue) (l : List Issue) :
    refsOf (i :: l) = ⟨i.key, pointsOf i, i.summary⟩ :: refsOf l := by
  simp [refsOf]

lemma assignedTo_cons (a : String) (i : Issue) (l : List Issue) :
    assignedTo a (i :: l) =
      if i.assignee = some a then i :: assignedTo a l else assignedTo a l := by
  simp only [assignedTo, List.filter_cons, decide_eq_true_eq]

lemma findWorkload_addIssue (dist : List (String × Workload)) (a b : String)
    (ref : IssueRef) (p : ℚ) :
    findWorkload b (addIssue dist a ref p) =
      if a = b then
        match findWorkload b dist with
        | some w => some { points := w.points + p, issues := w.issues ++ [ref] }
        | none => some { points := p, issues := [ref] }
      else findWorkload b dist := by
  induction dist with
  | nil => by_cases hab : a = b <;> simp [addIssue, findWorkload, hab]
  | cons hd tl ih =>
      obtain ⟨c, w⟩ := hd
      by_cases hca : c = a
      · subst hca
        by_cases hcb : c = b
        · subst hcb
          simp [addIssue, findWorkload]
        · simp [addIssue, findWorkload, hcb]
      · by_cases hcb : c = b
        · subst hcb
          have hab : ¬ a = c := fun h => hca h.symm
          simp [addIssue, findWorkload, hca, hab]
        · simp [addIssue, findWorkload, hca, hcb, ih]

lemma findWorkload_foldl (l : List Issue) (acc : List (String × Workload))
    (a : String) :
    findWorkload a (l.foldl distStep acc) =
      match findWorkload a acc with
      | some w => some { points := w.points + points_sum (assignedTo a l),
                         issues := w.issues ++ refsOf (assignedTo a l) }
      | none =>
          if (assignedTo a l).isEmpty then none
          else some { points := points_sum (assignedTo a l),
                      issues := refsOf (assignedTo a l) } := by
  induction l generalizing acc with
  | nil =>
      simp only [List.foldl_nil]
      cases hw : findWorkload a acc with
      | none => simp [assignedTo]
      | some w => simp [assignedTo, points_sum, refsOf]
  | cons i rest ih =>
      simp only [List.foldl_cons]
      cases hA : i.assignee with
      | none =>
          have hstep : distStep acc i = acc := by simp [distStep, hA]
          have hne : ¬ i.assignee = some a := by simp [hA]
          rw [hstep, ih, assignedTo_cons, if_neg hne]
      | some b =>
          have hstep : distStep acc i =
              addIssue acc b ⟨i.key, pointsOf i, i.summary⟩ (pointsOf i) := by
            simp [distStep, hA]
          rw [hstep, ih, findWorkload_addIssue]
          by_cases hba : b = a
          · rw [if_pos hba]
            have hia : i.assignee = some a := by rw [hA, hba]
            rw [assignedTo_cons, if_pos hia]
            cases hw : findWorkload a acc with
            | none => simp [points_sum_cons, refsOf_cons]
            | some w => simp [points_sum_cons, refsOf_cons, add_assoc]
          · rw [if_neg hba]
            have hne : ¬ i.assignee = some a := by simp [hA, hba]
            rw [assignedTo_cons, if_neg hne]

/-- Master characterization of the workload-distribution dict: an assignee has
an entry exactly when some sprint issue is assigned to them, and the entry
carries the sum of their assigned points and the records of their assigned
issues, in order. -/
lemma workload_distribution_findWorkload (issues : List Issue) (a : String) :
    findWorkload a (workload_distribution issues) =
      if (assignedTo a issues).isEmpty then none
      else some { points := points_sum (assignedTo a issues),
                  issues := refsOf (assignedTo a issues) } := by
  have h := findWorkload_foldl issues [] a
  simpa [findWorkload] using h

lemma addIssue_fst (dist : List (String × Workload)) (a : String) (ref : IssueRef)
    (p : ℚ) :
    (addIssue dist a ref p).map Prod.fst =
      if a ∈ dist.map Prod.fst then dist.map Prod.fst
      else dist.map Prod.fst ++ [a] := by
  induction dist with
  | nil => simp [addIssue]
  | cons hd tl ih =>
      obtain ⟨b, w⟩ := hd
      by_cases hba : b = a
      · subst hba
        simp [addIssue]
      · have hab : ¬ a = b := fun h => hba h.symm
        by_cases hmem : a ∈ tl.map Prod.fst
        · simp [addIssue, hba, ih, hmem, hab]
        · simp [addIssue, hba, ih, hmem, hab]

lemma foldl_distStep_fst_nodup (l : List Issue) (acc : List (String × Workload))
    (h : (acc.map Prod.fst).Nodup) :
    (((l.foldl distStep acc)).map Prod.fst).Nodup := by
  induction l generalizing acc with
  | nil => simpa using h
  | cons i rest ih =>
      simp only [List.foldl_cons]
      apply ih
      cases hA : i.assignee with
      | none => simpa [distStep, hA] using h
      | some b =>
          have hstep : distStep acc i =
              addIssue acc b ⟨i.key, pointsOf i, i.summary⟩ (pointsOf i) := by
            simp [distStep, hA]
          rw [hstep, addIssue_fst]
          split_ifs with hmem
          · exact h
          · simp [List.nodup_append, h, hmem]

/-- The keys of the workload distribution are pairwise distinct. -/
lemma workload_distribution_fst_nodup (issues : List Issue) :
    ((workload_distribution issues).map Prod.fst).Nodup :=
  foldl_distStep_fst_nodup issues [] (by simp)

lemma findWorkload_eq_some_of_mem {dist : List (String × Workload)} {a : String}
    {w : Workload} (hnd : (dist.map Prod.fst).Nodup) (hmem : (a, w) ∈ dist) :
    findWorkload a dist = some w := by
  induction dist with
  | nil => simp at hmem
  | cons hd tl ih =>
      obtain ⟨b, u⟩ := hd
      simp only [List.map_cons, List.nodup_cons] at hnd
      rcases List.mem_cons.mp hmem with heq | htl
      · obtain ⟨h1, h2⟩ := Prod.mk.injEq .. ▸ heq
        subst h1; subst h2
        simp [findWorkload]
      · have haf : a ∈ tl.map Prod.fst :=
          List.mem_map.mpr ⟨(a, w), htl, rfl⟩
        have hba : ¬ b = a := fun h => hnd.1 (h ▸ haf)
        simp only [findWorkload, if_neg hba]
        exact ih hnd.2 htl

lemma mem_of_findWorkload_eq_some {dist : List (String × Workload)} {a : String}
    {w : Workload} (h : findWorkload a dist = some w) : (a, w) ∈ dist := by
  induction dist with
  | nil => simp [findWorkload] at h
  | cons hd tl ih =>
      obtain ⟨b, u⟩ := hd
      by_cases hba : b = a
      · subst hba
        simp only [findWorkload, if_pos trivial, eq_self_iff_true, if_true] at h
        rw [Option.some.injEq] at h
        subst h
        exact List.mem_cons_self _ _
      · simp only [findWorkload, if_neg hba] at h
        exact List.mem_cons_of_mem _ (ih h)

lemma imbalance_filter_not_mem (avg : ℚ) (a : String)
    (dist : List (String × Workload)) (ha : a ∉ dist.map Prod.fst) :
    (imbalance_filterMap avg dist).filter (isImbalanceFor a) = [] := by
  induction dist with
  | nil => rfl
  | cons hd tl ih =>
      obtain ⟨b, u⟩ := hd
      simp only [List.map_cons, List.mem_cons] at ha
      push_neg at ha
      have hbeq : (b == a) = false := by
        simp only [beq_eq_false_iff_ne, ne_eq]
        exact fun h => ha.1 h.symm
      by_cases hc : u.points > avg * 1.3
      · simp [imbalance_filterMap, hc, List.filter_cons, isImbalanceFor, hbeq,
          ih ha.2]
      · simp [imbalance_filterMap, hc, ih ha.2]

/-- The imbalance recommendations naming assignee `a` are exactly one when the
entry of `a` is over threshold, none otherwise. -/
lemma imbalance_filter_mem (avg : ℚ) (a : String) (w : Workload)
    (dist : List (String × Workload)) (hnd : (dist.map Prod.fst).Nodup)
    (hmem : (a, w) ∈ dist) :
    (imbalance_filterMap avg dist).filter (isImbalanceFor a) =
      if w.points > avg * 1.3 then
        [Recommendation.workload_imbalance Severity.medium a w.points avg w.issues]
      else [] := by
  induction dist with
  | nil => simp at hmem
  | cons hd tl ih =>
      obtain ⟨b, u⟩ := hd
      simp only [List.map_cons, List.nodup_cons] at hnd
      rcases List.mem_cons.mp hmem with heq | htl
      · obtain ⟨h1, h2⟩ := Prod.mk.injEq .. ▸ heq
        subst h1; subst h2
        have htl0 : (imbalance_filterMap avg tl).filter (isImbalanceFor a) = [] :=
          imbalance_filter_not_mem avg a tl hnd.1
        by_cases hc : w.points > avg * 1.3
        · simp [imbalance_filterMap, hc, List.filter_cons, isImbalanceFor, htl0]
        · simp [imbalance_filterMap, hc, htl0]
      · have haf : a ∈ tl.map Prod.fst :=
          List.mem_map.mpr ⟨(a, w), htl, rfl⟩
        have hba : ¬ b = a := fun h => hnd.1 (h ▸ haf)
        have hbeq : (b == a) = false := by
          simp only [beq_eq_false_iff_ne, ne_eq]
          exact hba
        by_cases hc : u.points > avg * 1.3
        · simp [imbalance_filterMap, hc, List.filter_cons, isImbalanceFor, hbeq,
            ih hnd.2 htl]
        · simp [imbalance_filterMap, hc, ih hnd.2 htl]

/-- The workload-imbalance recommendations of `plan_sprint` naming `a`,
for an assignee with entry `w` in the distribution. -/
lemma plan_sprint_filter_imbalance (m : SprintMetrics) (tv : ℚ) (a : String)
    (w : Workload) (hmem : (a, w) ∈ workload_distribution m.issues) :
    (plan_sprint m tv).recommendations.filter (isImbalanceFor a) =
      if w.points > tv / ((workload_distribution m.issues).length : ℚ) * 1.3 then
        [Recommendation.workload_imbalance Severity.medium a w.points
          (tv / ((workload_distribution m.issues).length : ℚ)) w.issues]
      else [] := by
  have hne : workload_distribution m.issues ≠ [] := by
    intro h0
    rw [h0] at hmem
    simp at hmem
  have hlen : 0 < (workload_distribution m.issues).length :=
    List.length_pos.mpr hne
  unfold plan_sprint
  simp only [List.filter_append]
  rw [over_filter_imb, large_filter_imb]
  unfold workload_recommendations
  rw [if_pos hlen,
    imbalance_filter_mem _ a w _ (workload_distribution_fst_nodup m.issues) hmem]
  simp

/-- Claim C4: with team average `target_velocity / team_count` (the team
being the assignees appearing on sprint issues), `plan_sprint` emits a
workload-imbalance recommendation of severity medium for exactly those
assignees whose summed assigned points strictly exceed 1.3 times the team
average, and the recommendation carries that assignee's full issue list. -/
theorem plan_sprint_workload_imbalance (m : SprintMetrics) (tv : ℚ)
    (a : String) (w : Workload)
    (hmem : (a, w) ∈ workload_distribution m.issues) :
    w.points = points_sum (assignedTo a m.issues) ∧
    w.issues = refsOf (assignedTo a m.issues) ∧
    (plan_sprint m tv).recommendations.filter (isImbalanceFor a) =
      (if w.points > tv / ((workload_distribution m.issues).length : ℚ) * 1.3 then
        [Recommendation.workload_imbalance Severity.medium a w.points
          (tv / ((workload_distribution m.issues).length : ℚ)) w.issues]
      else []) := by
  have hnd := workload_distribution_fst_nodup m.issues
  have hfind := findWorkload_eq_some_of_mem hnd hmem
  have hchar := workload_distribution_findWorkload m.issues a
  rw [hfind] at hchar
  by_cases hE : (assignedTo a m.issues).isEmpty = true
  · rw [if_pos hE] at hchar
    exact absurd hchar (by simp)
  · rw [if_neg hE] at hchar
    rw [Option.some.injEq] at hchar
    subst hchar
    exact ⟨rfl, rfl, plan_sprint_filter_imbalance m tv a _ hmem⟩

/-- Issue list for the workload-imbalance witness: a single assignee holding
13.5 points against a team average of 10. -/
def imbalanceIssues : List Issue :=
  [ { key := "W-1", summary := "big", assignee := some "alice",
      story_points := some 13.5, status := "To Do" } ]

/-- Witness for claim C4: team average 10 (velocity 10, one assignee) and a
member at 13.5 points, which exceeds 13 and triggers the recommendation. -/
theorem plan_sprint_workload_imbalance_witness :
    (("alice", (⟨13.5, [⟨"W-1", 13.5, "big"⟩]⟩ : Workload)) ∈
        workload_distribution (get_sprint_metrics imbalanceIssues).issues) ∧
    ((13.5 : ℚ) =
        points_sum (assignedTo "alice" (get_sprint_metrics imbalanceIssues).issues) ∧
      [(⟨"W-1", 13.5, "big"⟩ : IssueRef)] =
        refsOf (assignedTo "alice" (get_sprint_metrics imbalanceIssues).issues) ∧
      (plan_sprint (get_sprint_metrics imbalanceIssues) 10).recommendations.filter
          (isImbalanceFor "alice") =
        (if (13.5 : ℚ) >
            10 / (((workload_distribution
              (get_sprint_metrics imbalanceIssues).issues).length : ℚ)) * 1.3 then
          [Recommendation.workload_imbalance Severity.medium "alice" 13.5
            (10 / (((workload_distribution
              (get_sprint_metrics imbalanceIssues).issues).length : ℚ)))
            [⟨"W-1", 13.5, "big"⟩]]
        else [])) := by
  have hmem : ("alice", (⟨13.5, [⟨"W-1", 13.5, "big"⟩]⟩ : Workload)) ∈
      workload_distribution (get_sprint_metrics imbalanceIssues).issues := by
    norm_num [get_sprint_metrics, workload_distribution, distStep, addIssue,
      pointsOf, imbalanceIssues]
  exact ⟨hmem,
    plan_sprint_workload_imbalance (get_sprint_metrics imbalanceIssues) 10
      "alice" _ hmem⟩

lemma countPoints_cons (p : ℚ) (i : Issue) (l : List Issue) :
    countPoints p (i :: l) =
      (if pointsOf i = p then 1 else 0) + countPoints p l := by
  simp only [countPoints, List.filter_cons, decide_eq_true_eq]
  split_ifs with h
  · simp [Nat.add_comm]
  · simp

lemma findCount_bump (d : List (ℚ × Nat)) (q p : ℚ) :
    findCount p (bump d q) =
      if q = p then
        match findCount p d with
        | some n => some (n + 1)
        | none => some 1
      else findCount p d := by
  induction d with
  | nil => by_cases hqp : q = p <;> simp [bump, findCount, hqp]
  | cons hd tl ih =>
      obtain ⟨r, n⟩ := hd
      by_cases hrq : r = q
      · subst hrq
        by_cases hrp : r = p
        · subst hrp
          simp [bump, findCount]
        · simp [bump, findCount, hrp]
      · by_cases hrp : r = p
        · subst hrp
          have hqr : ¬ q = r := fun h => hrq h.symm
          simp [bump, findCount, hrq, hqr]
        · simp [bump, findCount, hrq, hrp, ih]

lemma findCount_foldl (l : List Issue) (acc : List (ℚ × Nat)) (p : ℚ) :
    findCount p (l.foldl bumpStep acc) =
      match findCount p acc with
      | some n => some (n + countPoints p l)
      | none =>
          if countPoints p l = 0 then none else some (countPoints p l) := by
  induction l generalizing acc with
  | nil =>
      simp only [List.foldl_nil]
      cases hw : findCount p acc with
      | none => simp [countPoints]
      | some n => simp [countPoints]
  | cons i rest ih =>
      simp only [List.foldl_cons]
      have hstep : bumpStep acc i = bump acc (pointsOf i) := rfl
      rw [hstep, ih, findCount_bump, countPoints_cons]
      by_cases hip : pointsOf i = p
      · rw [if_pos hip, if_pos hip]
        cases hw : findCount p acc with
        | none =>
            simp only []
            by_cases h0 : countPoints p rest = 0 <;>
              simp [h0, Nat.add_comm, Nat.succ_ne_zero]
        | some n =>
            simp [Nat.add_assoc]
      · simp [if_neg hip]

/-- Master characterization of the story-point distribution: a point value
has an entry exactly when some issue carries it, and the entry counts those
issues. -/
lemma story_points_distribution_findCount (issues : List Issue) (p : ℚ) :
    findCount p (story_points_distribution issues) =
      if countPoints p issues = 0 then none else some (countPoints p issues) := by
  have h := findCount_foldl issues [] p
  simpa [findCount] using h

lemma any_key_eq_isSome (spd : List (ℚ × Nat)) (p : ℚ) :
    spd.any (fun e => decide (e.1 = p)) = (findCount p spd).isSome := by
  induction spd with
  | nil => rfl
  | cons hd tl ih =>
      obtain ⟨q, n⟩ := hd
      by_cases hqp : q = p
      · simp [findCount, hqp]
      · simp [findCount, hqp, ih]

/-- Claim C8: a sprint containing exactly one 13-point issue and no 21-point
issue produces exactly one large-stories recommendation, of severity medium,
whose attached distribution maps 13 to the count 1 (and has no entry 21). -/
theorem plan_sprint_large_stories (m : SprintMetrics) (tv : ℚ)
    (h13 : countPoints 13 m.issues = 1) (h21 : countPoints 21 m.issues = 0) :
    (plan_sprint m tv).recommendations.filter isLargeStories =
      [Recommendation.large_stories Severity.medium
        (story_points_distribution m.issues)] ∧
    findCount 13 (story_points_distribution m.issues) = some 1 ∧
    findCount 21 (story_points_distribution m.issues) = none := by
  have hf13 : findCount 13 (story_points_distribution m.issues) = some 1 := by
    rw [story_points_distribution_findCount, h13]
    norm_num
  have hf21 : findCount 21 (story_points_distribution m.issues) = none := by
    rw [story_points_distribution_findCount, h21]
    norm_num
  refine ⟨?_, hf13, hf21⟩
  unfold plan_sprint
  simp only [List.filter_append]
  rw [over_filter_large, workload_filter_large, large_filter_self]
  unfold large_story_recommendations
  rw [any_key_eq_isSome, hf13]
  simp

/-- Issue list for the large-stories witness: exactly one 13-point issue. -/
def largeStoryIssues : List Issue :=
  [ { key := "L-1", summary := "huge", story_points := some 13,
      status := "To Do" } ]

/-- Witness for claim C8 at the one-13-point-issue sprint. -/
theorem plan_sprint_large_stories_witness :
    (countPoints 13 (get_sprint_metrics largeStoryIssues).issues = 1 ∧
      countPoints 21 (get_sprint_metrics largeStoryIssues).issues = 0) ∧
    ((plan_sprint (get_sprint_metrics largeStoryIssues) 20).recommendations.filter
        isLargeStories =
      [Recommendation.large_stories Severity.medium
        (story_points_distribution (get_sprint_metrics largeStoryIssues).issues)] ∧
    findCount 13
        (story_points_distribution (get_sprint_metrics largeStoryIssues).issues) =
      some 1 ∧
    findCount 21
        (story_points_distribution (get_sprint_metrics largeStoryIssues).issues) =
      none) := by
  have h13 : countPoints 13 (get_sprint_metrics largeStoryIssues).issues = 1 := by
    norm_num [countPoints, get_sprint_metrics, largeStoryIssues, pointsOf]
  have h21 : countPoints 21 (get_sprint_metrics largeStoryIssues).issues = 0 := by
    norm_num [countPoints, get_sprint_metrics, largeStoryIssues, pointsOf]
  exact ⟨⟨h13, h21⟩,
    plan_sprint_large_stories (get_sprint_metrics largeStoryIssues) 20 h13 h21⟩

lemma assignedTo_exists (a : String) (issues : List Issue) :
    (assignedTo a issues).isEmpty = false ↔ ∃ i ∈ issues, i.assignee = some a := by
  induction issues with
  | nil => simp [assignedTo]
  | cons i rest ih =>
      by_cases h : i.assignee = some a
      · simp [assignedTo_cons, h]
      · simp [assignedTo_cons, h, ih]

/-- Claim C10: issues without an assignee are excluded from the workload
distribution (the keys are exactly the assignees appearing on issues, without
duplicates, and each entry aggregates exactly that assignee's issues), the
team size used for the average is the number of distinct appearing assignees,
while unassigned points still count toward the sprint total and hence toward
the overcommitment check. -/
theorem plan_sprint_unassigned (issues : List Issue) (tv : ℚ) :
    ((workload_distribution issues).map Prod.fst).Nodup ∧
    (∀ a, (∃ w, (a, w) ∈ workload_distribution issues) ↔
        ∃ i ∈ issues, i.assignee = some a) ∧
    (∀ a w, (a, w) ∈ workload_distribution issues →
        w.points = points_sum (assignedTo a issues) ∧
        w.issues = refsOf (assignedTo a issues)) ∧
    (workload_distribution issues).length =
      ((issues.filterMap Issue.assignee).dedup).length ∧
    (get_sprint_metrics issues).total_points = points_sum issues ∧
    (plan_sprint (get_sprint_metrics issues) tv).recommendations.filter
        isOvercommitment =
      (if points_sum issues > tv * 1.2 then
        [Recommendation.overcommitment Severity.high (points_sum issues) tv
          (points_sum issues - tv)]
      else []) := by
  have hnd := workload_distribution_fst_nodup issues
  have hmemiff : ∀ a, (∃ w, (a, w) ∈ workload_distribution issues) ↔
      ∃ i ∈ issues, i.assignee = some a := by
    intro a
    constructor
    · rintro ⟨w, hw⟩
      have hfind := findWorkload_eq_some_of_mem hnd hw
      have hchar := workload_distribution_findWorkload issues a
      rw [hfind] at hchar
      by_cases hE : (assignedTo a issues).isEmpty = true
      · rw [if_pos hE] at hchar
        exact absurd hchar (by simp)
      · have hE' : (assignedTo a issues).isEmpty = false := by simpa using hE
        exact (assignedTo_exists a issues).mp hE'
    · intro hex
      have hE' : (assignedTo a issues).isEmpty = false :=
        (assignedTo_exists a issues).mpr hex
      have hchar := workload_distribution_findWorkload issues a
      rw [if_neg (by simp [hE'])] at hchar
      exact ⟨_, mem_of_findWorkload_eq_some hchar⟩
  refine ⟨hnd, hmemiff, ?_, ?_, rfl, ?_⟩
  · intro a w hw
    have hfind := findWorkload_eq_some_of_mem hnd hw
    have hchar := workload_distribution_findWorkload issues a
    rw [hfind] at hchar
    by_cases hE : (assignedTo a issues).isEmpty = true
    · rw [if_pos hE] at hchar
      exact absurd hchar (by simp)
    · rw [if_neg hE, Option.some.injEq] at hchar
      subst hchar
      exact ⟨rfl, rfl⟩
  · have hndD : ((issues.filterMap Issue.assignee).dedup).Nodup :=
      List.nodup_dedup _
    have hiff : ∀ x, x ∈ (workload_distribution issues).map Prod.fst ↔
        x ∈ (issues.filterMap Issue.assignee).dedup := by
      intro x
      rw [List.mem_dedup, List.mem_filterMap]
      constructor
      · intro hx
        obtain ⟨p, hp, rfl⟩ := List.mem_map.mp hx
        exact (hmemiff p.1).mp ⟨p.2, hp⟩
      · rintro ⟨i, hi, ha⟩
        obtain ⟨w, hw⟩ := (hmemiff x).mpr ⟨i, hi, ha⟩
        exact List.mem_map.mpr ⟨(x, w), hw, rfl⟩
    have hperm : List.Perm ((workload_distribution issues).map Prod.fst)
        ((issues.filterMap Issue.assignee).dedup) :=
      (List.perm_ext_iff_of_nodup hnd hndD).mpr hiff
    have hl := hperm.length_eq
    simpa using hl
  · rw [plan_sprint_filter_over]
    rfl

/-- The `\x7bkey, summary, points\x7d` record appended to status buckets and
standup updates (scrum_master.py lines 125 to 129 and 239 to 243). -/
structure IssueInfo where
  key : String
  summary : String
  points : Option ℚ
deriving DecidableEq, Repr

/-- One value of the `status_distribution` dict
(scrum_master.py lines 116 to 121). -/
structure StatusBucket where
  count : Nat
  points : ℚ
  issues : List IssueInfo
deriving DecidableEq, Repr

/-- A record of the `blocked_issues` list
(scrum_master.py lines 133 to 138). -/
structure BlockedIssue where
  key : String
  summary : String
  points : Option ℚ
  assignee : Option String
deriving DecidableEq, Repr

/-- Update of the `status_distribution` dict for one issue
(scrum_master.py lines 115 to 129). -/
def addStatus (d : List (String × StatusBucket)) (st : String) (info : IssueInfo)
    (pts : ℚ) : List (String × StatusBucket) :=
  match d with
  | [] => [(st, ⟨1, pts, [info]⟩)]
  | (s, b) :: rest =>
      if s = st then
        (s, ⟨b.count + 1, b.points + pts, b.issues ++ [info]⟩) :: rest
      else (s, b) :: addStatus rest st info pts

/-- One iteration of the status-distribution loop
(scrum_master.py lines 115 to 129); the dict is keyed by the raw status
string. -/
def statusStep (d : List (String × StatusBucket)) (i : Issue) :
    List (String × StatusBucket) :=
  addStatus d i.status ⟨i.key, i.summary, i.story_points⟩ (pointsOf i)

/-- The `status_distribution` built by `analyze_progress`
(scrum_master.py lines 114 to 129). -/
def status_distribution (issues : List Issue) : List (String × StatusBucket) :=
  issues.foldl statusStep []

/-- The `blocked_issues` list built by `analyze_progress`
(scrum_master.py lines 131 to 138): issues whose lowercased status is
blocked or impediment, with the raw optional story points kept. -/
def blocked_issues (issues : List Issue) : List BlockedIssue :=
  (issues.filter (fun i => isBlockedStatus i.status)).map
    (fun i => ⟨i.key, i.summary, i.story_points, i.assignee⟩)

/-- `sum(issue["points"] or 0 for issue in blocked_issues)`
(scrum_master.py line 160). -/
def blocked_points (issues : List Issue) : ℚ :=
  ((blocked_issues issues).map (fun b => b.points.getD 0)).sum

/-- Risks produced by `analyze_progress`
(scrum_master.py lines 146 to 172), with their detail payloads. -/
inductive Risk where
  | behind_schedule (severity : Severity)
      (current_completion expected_completion variance : ℚ)
  | blocked_work (severity : Severity) (blocked_pts blocked_percentage : ℚ)
      (blocked : List BlockedIssue)
deriving DecidableEq, Repr

/-- `ScrumMaster._calculate_time_remaining` (scrum_master.py lines 279 to 285),
with dates as day counts and the current day passed explicitly. -/
def calculate_time_remaining (now : ℤ) (s : Sprint) : Option ℤ :=
  match s.end_date with
  | some e => some (max 0 (e - now))
  | none => none

/-- `ScrumMaster._calculate_sprint_length` (scrum_master.py lines 287 to 293):
zero when either timestamp is missing. -/
def calculate_sprint_length (s : Sprint) : ℤ :=
  match s.start_date, s.end_date with
  | some a, some b => b - a
  | _, _ => 0

/-- `ScrumMaster._calculate_days_elapsed` (scrum_master.py lines 295 to 301):
zero when the start timestamp is missing. -/
def calculate_days_elapsed (now : ℤ) (s : Sprint) : ℤ :=
  match s.start_date with
  | some a => now - a
  | none => 0

/-- The ideal burndown completion `days_elapsed / total_days * 100`
(scrum_master.py line 144), evaluated only under the positive-length guard. -/
def ideal_completion (now : ℤ) (s : Sprint) : ℚ :=
  ((calculate_days_elapsed now s : ℚ) / (calculate_sprint_length s : ℚ)) * 100

/-- The behind-schedule check of `analyze_progress`
(scrum_master.py lines 140 to 156): performed only when the sprint length is
positive, and firing when actual completion trails the ideal by more than 20
percentage points. -/
def schedule_risks (now : ℤ) (metrics : SprintMetrics) (s : Sprint) :
    List Risk :=
  if 0 < calculate_sprint_length s then
    if metrics.completion_percentage < ideal_completion now s - 20 then
      [Risk.behind_schedule Severity.high metrics.completion_percentage
        (ideal_completion now s)
        (ideal_completion now s - metrics.completion_percentage)]
    else []
  else []

/-- The blocked-work check of `analyze_progress`
(scrum_master.py lines 158 to 172): only entered when the blocked list is
non-empty, and firing when blocked points exceed 20 percent of the total. -/
def blocked_risks (metrics : SprintMetrics) : List Risk :=
  if (blocked_issues metrics.issues).isEmpty then []
  else if blocked_points metrics.issues > metrics.total_points * 0.2 then
    [Risk.blocked_work Severity.high (blocked_points metrics.issues)
      (blocked_points metrics.issues / metrics.total_points * 100)
      (blocked_issues metrics.issues)]
  else []

/-- The analysis dict returned by `ScrumMaster.analyze_progress`
(scrum_master.py lines 95 to 174). -/
structure ProgressAnalysis where
  total_points : ℚ
  completed_points : ℚ
  remaining_points : ℚ
  completion_percentage : ℚ
  time_remaining : Option ℤ
  risks : List Risk
  status_distribution : List (String × StatusBucket)
  blocked_issues : List BlockedIssue
deriving DecidableEq, Repr

/-- `ScrumMaster.analyze_progress` (scrum_master.py lines 95 to 174); the
risks appear in source order: behind-schedule first, then blocked-work. -/
def analyze_progress (now : ℤ) (metrics : SprintMetrics) (s : Sprint) :
    ProgressAnalysis :=
  { total_points := metrics.total_points
    completed_points := metrics.completed_points
    remaining_points := metrics.remaining_points
    completion_percentage := metrics.completion_percentage
    time_remaining := calculate_time_remaining now s
    risks := schedule_risks now metrics s ++ blocked_risks metrics
    status_distribution := status_distribution metrics.issues
    blocked_issues := blocked_issues metrics.issues }

/-- Recognizer for behind-schedule risks. -/
def isBehindSchedule : Risk → Bool
  | Risk.behind_schedule _ _ _ _ => true
  | _ => false

/-- Recognizer for blocked-work risks. -/
def isBlockedWork : Risk → Bool
  | Risk.blocked_work _ _ _ _ => true
  | _ => false

/-- Claim C5: for a sprint missing its start or end timestamp the derived
sprint length is zero, the elapsed days are zero when the start is missing,
and `analyze_progress` skips the behind-schedule computation entirely (its
only division by the sprint length), emitting no behind-schedule risk. -/
theorem analyze_progress_zero_days (now : ℤ) (m : SprintMetrics) (s : Sprint)
    (h : s.start_date = none ∨ s.end_date = none) :
    calculate_sprint_length s = 0 ∧
    (s.start_date = none → calculate_days_elapsed now s = 0) ∧
    (analyze_progress now m s).risks.filter isBehindSchedule = [] := by
  have hlen : calculate_sprint_length s = 0 := by
    rcases h with h | h
    · simp [calculate_sprint_length, h]
    · cases hs : s.start_date <;> simp [calculate_sprint_length, h, hs]
  have hsched : schedule_risks now m s = [] := by
    unfold schedule_risks
    rw [hlen]
    norm_num
  have hblocked : (blocked_risks m).filter isBehindSchedule = [] := by
    unfold blocked_risks
    split_ifs <;> simp [isBehindSchedule]
  refine ⟨hlen, ?_, ?_⟩
  · intro h0
    simp [calculate_days_elapsed, h0]
  · show (schedule_risks now m s ++ blocked_risks m).filter isBehindSchedule = []
    rw [List.filter_append, hsched, hblocked]
    simp

/-- A sprint with no start timestamp. -/
def startlessSprint : Sprint :=
  { id := 7, name := "S7", status := SprintStatus.active, end_date := some 14 }

/-- Witness for claim C5 at a sprint missing its start timestamp. -/
theorem analyze_progress_zero_days_witness :
    (startlessSprint.start_date = none ∨ startlessSprint.end_date = none) ∧
    (calculate_sprint_length startlessSprint = 0 ∧
      (startlessSprint.start_date = none →
        calculate_days_elapsed 3 startlessSprint = 0) ∧
      (analyze_progress 3 (get_sprint_metrics sampleIssues)
          startlessSprint).risks.filter isBehindSchedule = []) :=
  ⟨Or.inl rfl,
    analyze_progress_zero_days 3 (get_sprint_metrics sampleIssues)
      startlessSprint (Or.inl rfl)⟩

/-- Claim C6: `analyze_progress` emits a blocked-work risk of severity high
exactly when the summed points of the case-insensitively blocked or
impediment issues strictly exceed 20 percent of the total committed points,
and the risk carries the blocked points, the blocked percentage and the full
blocked-issue list (which `analyze_progress` also reports directly). -/
theorem analyze_progress_blocked_work (now : ℤ) (issues : List Issue)
    (s : Sprint)
    (h : ∀ i ∈ issues, ∀ p, i.story_points = some p → 0 ≤ p) :
    (analyze_progress now (get_sprint_metrics issues) s).blocked_issues =
      blocked_issues issues ∧
    (analyze_progress now (get_sprint_metrics issues) s).risks.filter
        isBlockedWork =
      (if blocked_points issues >
          (get_sprint_metrics issues).total_points * 0.2 then
        [Risk.blocked_work Severity.high (blocked_points issues)
          (blocked_points issues / (get_sprint_metrics issues).total_points * 100)
          (blocked_issues issues)]
      else []) := by
  have hIss : (get_sprint_metrics issues).issues = issues := rfl
  have hs0 : (schedule_risks now (get_sprint_metrics issues) s).filter
      isBlockedWork = [] := by
    unfold schedule_risks
    split_ifs <;> simp [isBlockedWork]
  have htot0 : 0 ≤ (get_sprint_metrics issues).total_points :=
    points_sum_nonneg h
  have hb : (blocked_risks (get_sprint_metrics issues)).filter isBlockedWork =
      (if blocked_points issues >
          (get_sprint_metrics issues).total_points * 0.2 then
        [Risk.blocked_work Severity.high (blocked_points issues)
          (blocked_points issues / (get_sprint_metrics issues).total_points * 100)
          (blocked_issues issues)]
      else []) := by
    unfold blocked_risks
    rw [hIss]
    cases hE : (blocked_issues issues).isEmpty with
    | true =>
        have hbl : blocked_issues issues = [] := by
          simpa using hE
        have hbp : blocked_points issues = 0 := by
          simp [blocked_points, hbl]
        have hcond : ¬ blocked_points issues >
            (get_sprint_metrics issues).total_points * 0.2 := by
          rw [hbp]
          have : 0 ≤ (get_sprint_metrics issues).total_points * 0.2 := by
            nlinarith
          linarith
        rw [if_pos rfl, if_neg hcond]
        rfl
    | false =>
        rw [if_neg (by simp [hE])]
        split_ifs with hc
        · simp [isBlockedWork]
        · rfl
  refine ⟨rfl, ?_⟩
  show (schedule_risks now (get_sprint_metrics issues) s ++
      blocked_risks (get_sprint_metrics issues)).filter isBlockedWork = _
  rw [List.filter_append, hs0, hb]
  simp

/-- The sprint used in the end-to-end scenario: two weeks, both dates
present. -/
def sampleSprint : Sprint :=
  { id := 1, name := "S1", status := SprintStatus.active,
    start_date := some 0, end_date := some 14 }

/-- Witness for claim C6 at the three-issue scenario: the 3 blocked points
out of 10 total exceed the 20 percent threshold, so the risk fires with the
single 3-point blocked issue. -/
theorem analyze_progress_blocked_work_witness :
    (∀ i ∈ sampleIssues, ∀ p, i.story_points = some p → 0 ≤ p) ∧
    blocked_issues sampleIssues =
      [{ key := "S-2", summary := "three", points := some 3, assignee := none }] ∧
    blocked_points sampleIssues = 3 ∧
    (get_sprint_metrics sampleIssues).total_points = 10 ∧
    ((analyze_progress 0 (get_sprint_metrics sampleIssues)
        sampleSprint).blocked_issues = blocked_issues sampleIssues ∧
      (analyze_progress 0 (get_sprint_metrics sampleIssues)
          sampleSprint).risks.filter isBlockedWork =
        (if blocked_points sampleIssues >
            (get_sprint_metrics sampleIssues).total_points * 0.2 then
          [Risk.blocked_work Severity.high (blocked_points sampleIssues)
            (blocked_points sampleIssues /
              (get_sprint_metrics sampleIssues).total_points * 100)
            (blocked_issues sampleIssues)]
        else [])) := by
  have hyp : ∀ i ∈ sampleIssues, ∀ p, i.story_points = some p → 0 ≤ p := by
    intro i hi p hp
    fin_cases hi <;> simp_all <;> subst hp <;> norm_num
  refine ⟨hyp, ?_, ?_, ?_,
    analyze_progress_blocked_work 0 sampleIssues sampleSprint hyp⟩
  · simp [blocked_issues, sampleIssues, isBlockedStatus, lowerString]
  · simp [blocked_points, blocked_issues, sampleIssues, isBlockedStatus,
      lowerString]
  · norm_num [get_sprint_metrics, points_sum, pointsOf, sampleIssues]

/-- Modelled from the spec: the greedy backlog-selection step of the fuller
`plan_sprint` (spec section 4.1 step 2) is not part of the source tree; the
HTTP layer (server.py lines 114 to 129) calls `plan_sprint` with team members
and a date range, a signature the embedded ScrumMaster does not define.
Issues are taken in backlog order while the cumulative story points stay at
most `target_velocity * 1.1`, stopping once at least `target_velocity` points
are selected or the backlog is exhausted. -/
def select_backlog (target_velocity : ℚ) : List Issue → ℚ → List Issue
  | [], _ => []
  | i :: rest, acc =>
      if target_velocity ≤ acc then []
      else if acc + pointsOf i ≤ target_velocity * 1.1 then
        i :: select_backlog target_velocity rest (acc + pointsOf i)
      else select_backlog target_velocity rest acc

lemma select_backlog_cons (tv : ℚ) (i : Issue) (rest : List Issue) (acc : ℚ) :
    select_backlog tv (i :: rest) acc =
      if tv ≤ acc then []
      else if acc + pointsOf i ≤ tv * 1.1 then
        i :: select_backlog tv rest (acc + pointsOf i)
      else select_backlog tv rest acc := rfl

lemma points_sum_nonneg_of (l : List Issue) (h : ∀ i ∈ l, 0 ≤ pointsOf i) :
    0 ≤ points_sum l := by
  induction l with
  | nil => simp [points_sum]
  | cons a t ih =>
      have ht := ih (fun i hi => h i (List.mem_cons_of_mem _ hi))
      have ha := h a (List.mem_cons_self _ _)
      rw [points_sum_cons]
      linarith

lemma select_backlog_sublist (tv : ℚ) (l : List Issue) :
    ∀ acc : ℚ, (select_backlog tv l acc).Sublist l := by
  induction l with
  | nil => intro acc; simp [select_backlog]
  | cons i rest ih =>
      intro acc
      rw [select_backlog_cons]
      split_ifs with h1 h2
      · exact List.nil_sublist _
      · exact List.Sublist.cons₂ i (ih _)
      · exact List.Sublist.cons i (ih _)

lemma select_backlog_bound (tv : ℚ) (l : List Issue) :
    ∀ acc : ℚ, acc ≤ tv * 1.1 →
      acc + points_sum (select_backlog tv l acc) ≤ tv * 1.1 := by
  induction l with
  | nil =>
      intro acc hacc
      simpa [select_backlog, points_sum] using hacc
  | cons i rest ih =>
      intro acc hacc
      rw [select_backlog_cons]
      split_ifs with h1 h2
      · simpa [points_sum] using hacc
      · have h := ih (acc + pointsOf i) h2
        rw [points_sum_cons]
        linarith
      · exact ih acc hacc

lemma select_backlog_stop (tv : ℚ) (l : List Issue) :
    ∀ (acc : ℚ) (pre : List Issue) (i : Issue) (post : List Issue),
      select_backlog tv l acc = pre ++ i :: post →
      acc + points_sum pre < tv := by
  induction l with
  | nil =>
      intro acc pre i post h
      simp [select_backlog] at h
  | cons j rest ih =>
      intro acc pre i post h
      rw [select_backlog_cons] at h
      split_ifs at h with h1 h2
      · simp at h
      · cases pre with
        | nil =>
            push_neg at h1
            simpa [points_sum] using h1
        | cons q pre' =>
            rw [List.cons_append] at h
            injection h with hq hrest
            subst hq
            have hih := ih (acc + pointsOf j) pre' i post hrest
            rw [points_sum_cons]
            linarith
      · exact ih acc pre i post h

lemma select_backlog_greedy (tv : ℚ) (l : List Issue) :
    ∀ acc : ℚ, (∀ i ∈ l, 0 ≤ pointsOf i) →
      acc + points_sum (select_backlog tv l acc) < tv →
      ∀ i ∈ l,
        acc + points_sum (select_backlog tv l acc) + pointsOf i ≤ tv * 1.1 →
        i ∈ select_backlog tv l acc := by
  induction l with
  | nil =>
      intro acc _ _ i hi
      simp at hi
  | cons j rest ih =>
      intro acc hnn hlt i hi hfit
      rw [select_backlog_cons] at hlt hfit ⊢
      by_cases h1 : tv ≤ acc
      · rw [if_pos h1] at hlt
        simp only [points_sum, List.map_nil, List.sum_nil, add_zero] at hlt
        linarith
      · rw [if_neg h1] at hlt hfit ⊢
        by_cases h2 : acc + pointsOf j ≤ tv * 1.1
        · rw [if_pos h2] at hlt hfit ⊢
          rcases List.mem_cons.mp hi with rfl | hir
          · exact List.mem_cons_self _ _
          · rw [points_sum_cons] at hlt hfit
            have hlt' : acc + pointsOf j +
                points_sum (select_backlog tv rest (acc + pointsOf j)) < tv := by
              linarith
            have hfit' : acc + pointsOf j +
                points_sum (select_backlog tv rest (acc + pointsOf j)) +
                pointsOf i ≤ tv * 1.1 := by
              linarith
            exact List.mem_cons_of_mem _
              (ih (acc + pointsOf j)
                (fun x hx => hnn x (List.mem_cons_of_mem _ hx)) hlt' i hir hfit')
        · rw [if_neg h2] at hlt hfit ⊢
          rcases List.mem_cons.mp hi with rfl | hir
          · exfalso
            have hsub := select_backlog_sublist tv rest acc
            have hsnn : 0 ≤ points_sum (select_backlog tv rest acc) :=
              points_sum_nonneg_of _ (fun x hx =>
                hnn x (List.mem_cons_of_mem _ (hsub.subset hx)))
            have hnni := hnn i (List.mem_cons_self _ _)
            linarith
          · exact ih acc (fun x hx => hnn x (List.mem_cons_of_mem _ hx)) hlt
              i hir hfit

/-- Claim C3: the spec-level planner greedily selects backlog issues in
backlog order (the selection is a sublist of the backlog), the cumulative
selected story points never exceed 1.1 times the target velocity, every
issue is taken while the running total is still below the target (so
selection stops once the target is reached), and as long as the target is
not reached every backlog issue that still fits under the 1.1 cap is
selected (the backlog is exhausted). -/
theorem plan_sprint_backlog_selection (tv : ℚ) (backlog : List Issue)
    (htv : 0 ≤ tv) (hpts : ∀ i ∈ backlog, 0 ≤ pointsOf i) :
    (select_backlog tv backlog 0).Sublist backlog ∧
    points_sum (select_backlog tv backlog 0) ≤ tv * 1.1 ∧
    (∀ pre i post, select_backlog tv backlog 0 = pre ++ i :: post →
      points_sum pre < tv) ∧
    (points_sum (select_backlog tv backlog 0) < tv →
      ∀ i ∈ backlog,
        points_sum (select_backlog tv backlog 0) + pointsOf i ≤ tv * 1.1 →
        i ∈ select_backlog tv backlog 0) := by
  have h0 : (0 : ℚ) ≤ tv * 1.1 := by nlinarith
  refine ⟨select_backlog_sublist tv backlog 0, ?_, ?_, ?_⟩
  · have hb := select_backlog_bound tv backlog 0 h0
    linarith
  · intro pre i post hpre
    have hs := select_backlog_stop tv backlog 0 pre i post hpre
    linarith
  · intro hlt i hi hfit
    exact select_backlog_greedy tv backlog 0 hpts (by linarith) i hi
      (by linarith)

/-- A backlog of 4, 9, 5 and 2 points for the selection witness. -/
def backlogIssues : List Issue :=
  [ { key := "B-1", summary := "b1", story_points := some 4, status := "Open" },
    { key := "B-2", summary := "b2", story_points := some 9, status := "Open" },
    { key := "B-3", summary := "b3", story_points := some 5, status := "Open" },
    { key := "B-4", summary := "b4", story_points := some 2, status := "Open" } ]

/-- Witness for claim C3 at target velocity 10 over the 4/9/5/2 backlog. -/
theorem plan_sprint_backlog_selection_witness :
    ((0 : ℚ) ≤ 10 ∧ ∀ i ∈ backlogIssues, 0 ≤ pointsOf i) ∧
    ((select_backlog 10 backlogIssues 0).Sublist backlogIssues ∧
      points_sum (select_backlog 10 backlogIssues 0) ≤ 10 * 1.1 ∧
      (∀ pre i post, select_backlog 10 backlogIssues 0 = pre ++ i :: post →
        points_sum pre < 10) ∧
      (points_sum (select_backlog 10 backlogIssues 0) < 10 →
        ∀ i ∈ backlogIssues,
          points_sum (select_backlog 10 backlogIssues 0) + pointsOf i ≤
            10 * 1.1 →
          i ∈ select_backlog 10 backlogIssues 0)) := by
  have hpts : ∀ i ∈ backlogIssues, 0 ≤ pointsOf i := by
    intro i hi
    fin_cases hi <;> norm_num [pointsOf, backlogIssues]
  exact ⟨⟨by norm_num, hpts⟩,
    plan_sprint_backlog_selection 10 backlogIssues (by norm_num) hpts⟩

/-- Recommendation tags of the spec-level sprint planner (spec section 4.1). -/
inductive SpecRecommendation where
  | overcommitment (overage : ℚ)
  | low_commitment (selected_points : ℚ)
  | workload_imbalance (assignee : String)
  | large_stories
deriving DecidableEq, Repr

/-- Modelled from the spec: the fuller `plan_sprint` of spec section 4.1 is
not part of the source tree (server.py calls it with team members and dates,
a signature the embedded ScrumMaster lacks).  It selects from the backlog
(step 2, `select_backlog`), then emits an overcommitment recommendation when
the sprint total exceeds `1.2 * tv` (step 3), a low-commitment warning when
the selected points fall below `0.9 * tv` (step 4), the workload-imbalance
recommendations over the combined issues (step 5) and the large-story
recommendation (step 6).  The result pairs the selected issues with the
recommendation list. -/
def plan_sprint_spec (committed backlog : List Issue) (tv : ℚ) :
    List Issue × List SpecRecommendation :=
  (select_backlog tv backlog 0,
    (if points_sum (committed ++ select_backlog tv backlog 0) > tv * 1.2 then
      [SpecRecommendation.overcommitment
        (points_sum (committed ++ select_backlog tv backlog 0) - tv)]
     else []) ++
    (if points_sum (select_backlog tv backlog 0) < tv * 0.9 then
      [SpecRecommendation.low_commitment
        (points_sum (select_backlog tv backlog 0))]
     else []) ++
    ((workload_distribution (committed ++ select_backlog tv backlog 0)).filterMap
      (fun aw =>
        if aw.2.points >
            tv / ((workload_distribution
              (committed ++ select_backlog tv backlog 0)).length : ℚ) * 1.3 then
          some (SpecRecommendation.workload_imbalance aw.1)
        else none)) ++
    (if (story_points_distribution
          (committed ++ select_backlog tv backlog 0)).any
            (fun e => decide (e.1 = 13)) ||
        (story_points_distribution
          (committed ++ select_backlog tv backlog 0)).any
            (fun e => decide (e.1 = 21)) then
      [SpecRecommendation.large_stories]
     else []))

/-- Claim C7: the spec-level `plan_sprint` emits a low-commitment warning
whenever the selected story points fall below 0.9 times the target
velocity. -/
theorem plan_sprint_low_commitment (committed backlog : List Issue) (tv : ℚ)
    (h : points_sum (select_backlog tv backlog 0) < tv * 0.9) :
    SpecRecommendation.low_commitment (points_sum (select_backlog tv backlog 0)) ∈
      (plan_sprint_spec committed backlog tv).2 := by
  unfold plan_sprint_spec
  simp only [List.mem_append]
  rw [if_pos h]
  simp

/-- Witness for claim C7: an empty backlog at target velocity 10 selects 0
points, below the 9-point low-commitment bar. -/
theorem plan_sprint_low_commitment_witness :
    points_sum (select_backlog 10 ([] : List Issue) 0) < 10 * 0.9 ∧
    SpecRecommendation.low_commitment
        (points_sum (select_backlog 10 ([] : List Issue) 0)) ∈
      (plan_sprint_spec [] [] 10).2 := by
  have h : points_sum (select_backlog 10 ([] : List Issue) 0) < 10 * 0.9 := by
    norm_num [select_backlog, points_sum]
  exact ⟨h, plan_sprint_low_commitment [] [] 10 h⟩

/-- `JiraClient.get_active_sprint` (jira_client.py lines 76 to 90): the first
sprint in active state on the board, if any; the tracker-side `state=active`
query is modelled as a filter over the board's sprints. -/
def get_active_sprint (sprints : List Sprint) : Option Sprint :=
  (sprints.filter (fun s => decide (s.status = SprintStatus.active))).head?

/-- The error taxonomy entry for a missing active sprint (spec section 7). -/
inductive StandupError where
  | noActiveSprint
deriving DecidableEq, Repr

/-- `status.lower() in ["in progress"]` (scrum_master.py line 247). -/
def isInProgressStatus (s : String) : Bool :=
  lowerString s == "in progress"

/-- `status.lower() in ["to do", "open"]` (scrum_master.py line 249). -/
def isToDoStatus (s : String) : Bool :=
  lowerString s == "to do" || lowerString s == "open"

/-- One value of the `team_updates` dict
(scrum_master.py lines 232 to 236). -/
structure TeamUpdate where
  completed : List IssueInfo
  in_progress : List IssueInfo
  planned : List IssueInfo
deriving DecidableEq, Repr

/-- Bucketing of one issue into a team member's update
(scrum_master.py lines 245 to 250); unrecognized statuses land in no
bucket. -/
def bucketUpdate (i : Issue) (info : IssueInfo) (u : TeamUpdate) : TeamUpdate :=
  if isDoneStatus i.status then { u with completed := u.completed ++ [info] }
  else if isInProgressStatus i.status then
    { u with in_progress := u.in_progress ++ [info] }
  else if isToDoStatus i.status then { u with planned := u.planned ++ [info] }
  else u

/-- Update of the `team_updates` dict for one assignee, creating the empty
entry on first sight (scrum_master.py lines 231 to 236). -/
def updateTeam (l : List (String × TeamUpdate)) (a : String)
    (g : TeamUpdate → TeamUpdate) : List (String × TeamUpdate) :=
  match l with
  | [] => [(a, g ⟨[], [], []⟩)]
  | (b, u) :: rest =>
      if b = a then (b, g u) :: rest else (b, u) :: updateTeam rest a g

/-- One iteration of the standup loop (scrum_master.py lines 229 to 258):
issues without an assignee are skipped entirely, blockers are collected for
assigned blocked issues. -/
def standupStep (acc : List (String × TeamUpdate) × List BlockedIssue)
    (i : Issue) : List (String × TeamUpdate) × List BlockedIssue :=
  match i.assignee with
  | none => acc
  | some a =>
      (updateTeam acc.1 a (bucketUpdate i ⟨i.key, i.summary, i.story_points⟩),
       if isBlockedStatus i.status then
         acc.2 ++ [⟨i.key, i.summary, i.story_points, i.assignee⟩]
       else acc.2)

/-- `priority in [Priority.HIGHEST, Priority.HIGH]` and not yet done
(scrum_master.py lines 261 to 265). -/
def isHighPriorityIssue (i : Issue) : Bool :=
  (decide (i.priority = some Priority.highest) ||
    decide (i.priority = some Priority.high)) && !(isDoneStatus i.status)

/-- One entry of the `priorities` list (scrum_master.py lines 266 to 275). -/
structure PriorityItem where
  key : String
  summary : String
  assignee : Option String
  points : Option ℚ
  status : String
deriving DecidableEq, Repr

/-- The report returned by `get_daily_standup_report`
(scrum_master.py lines 217 to 226). -/
structure StandupReport where
  completion_percentage : ℚ
  remaining_points : ℚ
  team_updates : List (String × TeamUpdate)
  blockers : List BlockedIssue
  priorities : List PriorityItem
deriving DecidableEq, Repr

/-- `ScrumMaster.get_daily_standup_report` (scrum_master.py lines 212 to
277), restricted to its pure content: the wall-clock `date` field and the
computed-but-unused `yesterday_cutoff` are omitted. -/
def get_daily_standup_report (metrics : SprintMetrics) : StandupReport :=
  { completion_percentage := metrics.completion_percentage
    remaining_points := metrics.remaining_points
    team_updates := (metrics.issues.foldl standupStep ([], [])).1
    blockers := (metrics.issues.foldl standupStep ([], [])).2
    priorities := (metrics.issues.filter isHighPriorityIssue).map
      (fun i => ⟨i.key, i.summary, i.assignee, i.story_points, i.status⟩) }

/-- Modelled from the spec: `generate_standup_report` (spec section 4.5) is
not part of the source tree; server.py line 153 calls
`scrum_master.generate_standup_report()`, which the embedded ScrumMaster does
not define.  Per the spec it requires an active sprint, failing with a
NoActiveSprint condition when `get_active_sprint` finds none, and otherwise
reports on the active sprint's issues (fetched through `issuesOf`). -/
def generate_standup_report (sprints : List Sprint)
    (issuesOf : ℤ → List Issue) : Except StandupError StandupReport :=
  match get_active_sprint sprints with
  | none => Except.error StandupError.noActiveSprint
  | some s =>
      Except.ok (get_daily_standup_report (get_sprint_metrics (issuesOf s.id)))

/-- Claim C9: whenever no sprint has status active, the standup-report
operation finds no active sprint and fails with the NoActiveSprint error
instead of returning a report. -/
theorem standup_requires_active_sprint (sprints : List Sprint)
    (issuesOf : ℤ → List Issue)
    (h : ∀ s ∈ sprints, s.status ≠ SprintStatus.active) :
    get_active_sprint sprints = none ∧
    generate_standup_report sprints issuesOf =
      Except.error StandupError.noActiveSprint := by
  have hf : sprints.filter (fun s => decide (s.status = SprintStatus.active)) =
      [] := by
    rw [List.filter_eq_nil_iff]
    intro s hs
    simpa using h s hs
  have hga : get_active_sprint sprints = none := by
    simp [get_active_sprint, hf]
  refine ⟨hga, ?_⟩
  unfold generate_standup_report
  rw [hga]

/-- A board holding only a closed sprint. -/
def closedOnlySprints : List Sprint :=
  [ { id := 2, name := "old", status := SprintStatus.closed } ]

/-- Witness for claim C9 at a board whose only sprint is closed. -/
theorem standup_requires_active_sprint_witness :
    (∀ s ∈ closedOnlySprints, s.status ≠ SprintStatus.active) ∧
    (get_active_sprint closedOnlySprints = none ∧
      generate_standup_report closedOnlySprints (fun _ => []) =
        Except.error StandupError.noActiveSprint) := by
  have h : ∀ s ∈ closedOnlySprints, s.status ≠ SprintStatus.active := by
    intro s hs
    fin_cases hs
    simp [closedOnlySprints]
  exact ⟨h, standup_requires_active_sprint closedOnlySprints (fun _ => []) h⟩

end McpJira
